import Mathlib

set_option maxHeartbeats 1000000

/-!
Verification of `renderapi/transform.py` (render-python).

Shallow embedding conventions:
* Python floats are modelled as exact rationals (`ℚ`); "within floating
  tolerance" in the specification becomes exact equality over `ℚ`.
* `N x 2` numpy point arrays are modelled as `List (ℚ × ℚ)`.
* Raised Python exceptions are modelled with `Except PyErr`.
* The code is Python 2 (the repository uses `basestring` and relies on
  integer `/`), so `/` on Python ints is embedded as `Nat` floor division.
-/

/-- Exception kinds raised by `renderapi.transform` and by the Python
runtime in the modelled code paths. -/
inductive PyErr where
  | typeError
  | valueError
  | keyError
  | indexError
  | renderError
  | estimationError
  | conversionError
  deriving DecidableEq, Repr

/-- The six scalar parameters of `AffineModel` (transform.py lines 199-212).
The source also stores a 3x3 homogeneous matrix `M`, kept in sync with the
six fields by `load_M` (lines 233-240): `M = [[M00, M01, B0], [M10, M11, B1],
[0, 0, 1]]`.  The fields are authoritative here; every use of `M[i, j]` in
the source is embedded as the corresponding field. -/
structure AffineModel where
  M00 : ℚ := 1
  M01 : ℚ := 0
  M10 : ℚ := 0
  M11 : ℚ := 1
  B0 : ℚ := 0
  B1 : ℚ := 0
  deriving DecidableEq, Repr

/-- `AffineModel.tform` (lines 321-324) on a single point: the point is
extended to homogeneous coordinates `(x, y, 1)` (`convert_to_point_vector`,
lines 304-314), multiplied by `M`, and the first two coordinates are divided
by the third (`convert_points_vector_to_array`, lines 316-319).  The third
coordinate is `0*x + 0*y + 1` because the bottom row of `M` is `[0, 0, 1]`. -/
def AffineModel.tform (A : AffineModel) (p : ℚ × ℚ) : ℚ × ℚ :=
  let w : ℚ := 0 * p.1 + 0 * p.2 + 1
  ((A.M00 * p.1 + A.M01 * p.2 + A.B0 * 1) / w,
   (A.M10 * p.1 + A.M11 * p.2 + A.B1 * 1) / w)

/-- `AffineModel.tform` applied to an `N x 2` point array. -/
def AffineModel.tformPts (A : AffineModel) (pts : List (ℚ × ℚ)) : List (ℚ × ℚ) :=
  pts.map A.tform

/-- `AffineModel.concatenate` (lines 274-296): block affine composition,
ported from trakEM2.  The result is built as
`AffineModel(a00, a01, a10, a11, a02, a12)`, whose positional parameters are
`(M00, M01, M10, M11, B0, B1)`. -/
def AffineModel.concatenate (self model : AffineModel) : AffineModel :=
  let a00 := self.M00 * model.M00 + self.M01 * model.M10
  let a01 := self.M00 * model.M01 + self.M01 * model.M11
  let a02 := self.M00 * model.B0 + self.M01 * model.B1 + self.B0
  let a10 := self.M10 * model.M00 + self.M11 * model.M10
  let a11 := self.M10 * model.M01 + self.M11 * model.M11
  let a12 := self.M10 * model.B0 + self.M11 * model.B1 + self.B1
  { M00 := a00, M01 := a01, M10 := a10, M11 := a11, B0 := a02, B1 := a12 }

lemma AffineModel.concatenate_tform (A B : AffineModel) (p : ℚ × ℚ) :
    (A.concatenate B).tform p = A.tform (B.tform p) := by
  have hw : ∀ x y : ℚ, 0 * x + 0 * y + 1 = 1 := fun x y => by ring
  simp only [AffineModel.concatenate, AffineModel.tform, hw, div_one, mul_one]
  exact Prod.ext_iff.mpr ⟨by ring, by ring⟩

/-- C1: for every two `AffineModel`s `A`, `B` and every point array `P`,
`A.concatenate(B)` represents "apply `B` then `A`":
`A.concatenate(B).tform(P) = A.tform(B.tform(P))` (exactly, over `ℚ`).
`concatenate` builds and returns a fresh model (lines 295-296) and, in this
pure embedding, the receiver and the argument are untouched by construction. -/
theorem C1_concatenate_is_composition (A B : AffineModel) (P : List (ℚ × ℚ)) :
    (A.concatenate B).tformPts P = A.tformPts (B.tformPts P) := by
  simp only [AffineModel.tformPts, List.map_map]
  exact List.map_congr_left fun p _ => A.concatenate_tform B p

/-! ## Serialization of `AffineModel` (claim C8)

`AffineModel.dataString` (lines 214-218) formats six `"%.10f"` tokens; the
embedding works at token level: a token is modelled by the exact rational
value its decimal text denotes, splitting/joining on spaces is the
identity between the token list and the string. -/

/-- Rounding to 10 fractional decimal digits, the effect of `"%.10f"`
formatting (line 216) on the printed value. -/
def round10 (q : ℚ) : ℚ := (round (q * 10 ^ 10) : ℚ) / 10 ^ 10

/-- `AffineModel.dataString` (lines 214-218) at token level: six tokens in
the source's order `M[0,0] M[1,0] M[0,1] M[1,1] M[0,2] M[1,2]`, i.e.
`M00 M10 M01 M11 B0 B1`, each field rounded to 10 fractional digits. -/
def AffineModel.dataStringTokens (A : AffineModel) : List ℚ :=
  [round10 A.M00, round10 A.M10, round10 A.M01, round10 A.M11,
   round10 A.B0, round10 A.B1]

/-- `AffineModel._process_dataString` (lines 220-231) at token level:
`dsList = datastring.split()`; entries `0..5` are converted by `float` and
assigned to `M00 M10 M01 M11 B0 B1` in that order (fewer than six tokens
raises `IndexError`), then `load_M` rebuilds the homogeneous matrix. -/
def AffineModel.processDataStringTokens (ds : List ℚ) : Except PyErr AffineModel :=
  if h : 6 ≤ ds.length then
    .ok { M00 := ds[0], M10 := ds[1], M01 := ds[2], M11 := ds[3],
          B0 := ds[4], B1 := ds[5] }
  else .error .indexError

/-- C8: the `dataString` of an `AffineModel` is exactly six space-separated
values, in the fixed order `M00 M10 M01 M11 B0 B1` (that is,
`M[0,0] M[1,0] M[0,1] M[1,1] M[0,2] M[1,2]`), each printed with 10
fractional digits; parsing assigns the six values back to the fields in the
same order and rebuilds the matrix, so decoding the encoding of `A` yields
`A`'s matrix with every entry rounded to 10 fractional digits. -/
theorem C8_affine_dataString_roundtrip (A : AffineModel) :
    A.dataStringTokens.length = 6 ∧
    A.dataStringTokens = [round10 A.M00, round10 A.M10, round10 A.M01,
      round10 A.M11, round10 A.B0, round10 A.B1] ∧
    AffineModel.processDataStringTokens A.dataStringTokens =
      .ok { M00 := round10 A.M00, M01 := round10 A.M01, M10 := round10 A.M10,
            M11 := round10 A.M11, B0 := round10 A.B0, B1 := round10 A.B1 } := by
  refine ⟨rfl, rfl, ?_⟩
  simp [AffineModel.processDataStringTokens, AffineModel.dataStringTokens]

/-! ## `AffineModel.fit` (claim C4) -/

/-- A two-dimensional numpy array of floats: `shape = (rows, cols)`,
entries addressed by row and column index. -/
structure NpArray2 where
  rows : ℕ
  cols : ℕ
  entry : ℕ → ℕ → ℚ

/-- `AffineModel.fit` (lines 242-260).  Line 244 raises `EstimationError`
unless `A.shape[0] == B.shape[0]` and `A.shape[1] == B.shape[1] == 2`.
Otherwise the `2N x 6` design matrix `M` and the `2N` right-hand side `Y`
are filled row pair by row pair (lines 251-257) and passed to
`np.linalg.lstsq` (line 259).  `lstsq` is numpy, not repository code, and
returns a least-squares solution for every finite system of this shape
(in particular for under-determined ones), raising nothing; the embedding
returns the constructed system.  There is no check on the number of
points. -/
def AffineModel.fit (A B : NpArray2) : Except PyErr (List (List ℚ) × List ℚ) :=
  if A.rows = B.rows ∧ A.cols = 2 ∧ B.cols = 2 then
    .ok ((List.range A.rows).flatMap (fun i =>
          [[A.entry i 0, A.entry i 1, 0, 0, 1, 0],
           [0, 0, A.entry i 0, A.entry i 1, 0, 1]]),
         (List.range A.rows).flatMap (fun i => [B.entry i 0, B.entry i 1]))
  else .error .estimationError

/-- C4 counterexample: two point pairs -- fewer than the three pairs the
claim says are required for Affine -- with conforming `(2, 2)` shapes do
not raise: `AffineModel.fit` never checks the point count. -/
theorem C4_counterexample_two_points_do_not_raise :
    (AffineModel.fit ⟨2, 2, fun i j => if i = j then 1 else 0⟩
      ⟨2, 2, fun i j => if i = j then 1 else 0⟩).isOk = true := by
  rfl

/-- C4 (amended): `AffineModel.fit` raises `EstimationError` exactly when
the shapes mismatch (different row counts, or either second dimension not
equal to 2); the point count is never checked, so conforming inputs with
however few pairs return the least-squares system without raising. -/
theorem C4_fit_error_iff_shape_mismatch (A B : NpArray2) :
    ((AffineModel.fit A B).isOk = true ↔
      (A.rows = B.rows ∧ A.cols = 2 ∧ B.cols = 2)) ∧
    (AffineModel.fit A B = .error .estimationError ↔
      ¬(A.rows = B.rows ∧ A.cols = 2 ∧ B.cols = 2)) := by
  by_cases h : A.rows = B.rows ∧ A.cols = 2 ∧ B.cols = 2 <;>
    simp [AffineModel.fit, h, Except.isOk, Except.toBool]

/-! ## The Translation/Rigid/Similarity dataString decoders (claims C5, C6) -/

/-- Python's builtin `float` applied to a list object raises `TypeError`
(CPython: "float() argument must be a string or a number").  The only call
site modelled is `float(dataString.split(' '))` (lines 368, 396, 462),
whose argument is always the list returned by `str.split`. -/
def pyFloatOfListArg (_xs : List String) : Except PyErr ℚ :=
  .error .typeError

/-- The expression `map(float(dataString.split(' ')))` of lines 368, 396 and
462: `dataString.split(' ')` builds a list of tokens; `float` applied to
that list raises `TypeError` before `map` is invoked (and `map` called with
a single argument would itself raise `TypeError`), so no value list is ever
produced. -/
def mapFloatOfSplit (dataString : String) : Except PyErr (List ℚ) := do
  let _ ← pyFloatOfListArg (dataString.splitOn (" "))
  .error .typeError

/-- `TranslationModel._process_dataString` (lines 366-371): evaluates
`tx, ty = map(float(dataString.split(' ')))`, then would assign `B0`, `B1`
and rebuild `M`.  The embedding returns the fields a successful run would
assign; an `Except.error` result assigns no field. -/
def TranslationModel.processDataString (dataString : String) :
    Except PyErr AffineModel := do
  let vals ← mapFloatOfSplit dataString
  match vals with
  | [tx, ty] => .ok { B0 := tx, B1 := ty }
  | _ => .error .valueError

/-- `RigidModel._process_dataString` (lines 394-403): evaluates
`theta, tx, ty = map(float(dataString.split(' ')))`; the subsequent field
assignments (lines 397-403) are modelled by `RigidModel.fieldsFromParsed`
on the parsed triple. -/
def RigidModel.processDataString (dataString : String) :
    Except PyErr (ℚ × ℚ × ℚ) := do
  let vals ← mapFloatOfSplit dataString
  match vals with
  | [theta, tx, ty] => .ok (theta, tx, ty)
  | _ => .error .valueError

/-- `SimilarityModel._process_dataString` (lines 460-469): evaluates
`s, theta, tx, ty = map(float(dataString.split(' ')))`; the field
assignments (lines 463-469) are modelled by
`SimilarityModel.fieldsFromParsed` on the parsed quadruple. -/
def SimilarityModel.processDataString (dataString : String) :
    Except PyErr (ℚ × ℚ × ℚ × ℚ) := do
  let vals ← mapFloatOfSplit dataString
  match vals with
  | [s, theta, tx, ty] => .ok (s, theta, tx, ty)
  | _ => .error .valueError

/-- The field assignments of `RigidModel._process_dataString` (lines
397-402) applied to a parsed triple `theta tx ty`.  The trigonometric
values enter as parameters `cosTheta = cos(theta)`, `sinTheta = sin(theta)`
(transcendental values are not rationals); line 400 is `self.M11 =
np.sin(theta)`. -/
def RigidModel.fieldsFromParsed (cosTheta sinTheta tx ty : ℚ) : AffineModel :=
  { M00 := cosTheta, M01 := -sinTheta, M10 := sinTheta, M11 := sinTheta,
    B0 := tx, B1 := ty }

/-- The field assignments of `SimilarityModel._process_dataString` (lines
463-468) applied to a parsed quadruple `s theta tx ty`; line 466 is
`self.M11 = s * np.sin(theta)`. -/
def SimilarityModel.fieldsFromParsed (s cosTheta sinTheta tx ty : ℚ) :
    AffineModel :=
  { M00 := s * cosTheta, M01 := -(s * sinTheta), M10 := s * sinTheta,
    M11 := s * sinTheta, B0 := tx, B1 := ty }

/-- Determinant of the linear `2x2` block of an `AffineModel`.  Every block
produced by the Rigid fitting path (Umeyama, lines 405-444, with scale
fixed at 1) is a rotation and has determinant 1. -/
def AffineModel.det2 (A : AffineModel) : ℚ :=
  A.M00 * A.M11 - A.M01 * A.M10

/-! ## The JSON codec (claim C3)

JSON dictionaries are modelled flat, with the keys the decoders of
`transform.py` read; a missing key is `none`.  The `list` and
`interpolated` handlers decode nested sub-dictionaries that none of the
claims exercise; they are modelled as opaque tags. -/

def AffineModel.className : String := "mpicbg.trakem2.transform.AffineModel2D"

def TranslationModel.className : String :=
  "mpicbg.trakem2.transform.TranslationModel2D"

def RigidModel.className : String := "mpicbg.trakem2.transform.RigidModel2D"

def SimilarityModel.className : String :=
  "mpicbg.trakem2.transform.SimilarityModel2D"

def Polynomial2DTransform.className : String :=
  "mpicbg.trakem2.transform.PolynomialTransform2D"

/-- The five class names registered in `handle_load_leaf` (lines 76-82). -/
def registeredLeafClassNames : List String :=
  [AffineModel.className, Polynomial2DTransform.className,
   TranslationModel.className, RigidModel.className,
   SimilarityModel.className]

/-- A JSON dictionary as consumed by the transform decoders. -/
structure JDict where
  type? : Option String := none
  className? : Option String := none
  dataString? : Option String := none
  transformId? : Option String := none
  refId? : Option String := none
  deriving DecidableEq, Repr

/-- Result of decoding a transform dictionary.  The two leaf kinds whose
numeric parsing succeeds carry the raw `dataString` they were handed; their
numeric parsing is modelled separately at token level
(`AffineModel.processDataStringTokens`,
`Polynomial2DTransform.processDataStringTokens`). -/
inductive DecodedTform where
  | generic (className dataString : String) (transformId : Option String)
  | affineLeaf (dataString : String) (transformId : Option String)
  | polyLeaf (dataString : String) (transformId : Option String)
  | translationLeaf (m : AffineModel) (transformId : Option String)
  | rigidLeaf (parsed : ℚ × ℚ × ℚ) (transformId : Option String)
  | similarityLeaf (parsed : ℚ × ℚ × ℚ × ℚ) (transformId : Option String)
  | listT
  | refT (refId : String)
  | interpolatedT
  deriving DecidableEq, Repr

/-- The `except KeyError: ... return Transform(json=d)` clause of
`load_leaf_json` (lines 89-94): a `KeyError` raised by the registry lookup
`handle_load_leaf[tform_class]` -- or from inside the chosen constructor --
selects the generic fallback; every other outcome passes through. -/
def onKeyErrorFallback (r fb : Except PyErr DecodedTform) :
    Except PyErr DecodedTform :=
  match r with
  | .error .keyError => fb
  | r => r

/-- The `except KeyError: raise RenderError(...)` clause of
`load_transform_json` (lines 69-72): a `KeyError` raised by the type lookup
`handle_load_tform[...]` or escaping the chosen handler becomes
`RenderError`; every other outcome passes through. -/
def keyErrorToRenderError (r : Except PyErr DecodedTform) :
    Except PyErr DecodedTform :=
  match r with
  | .error .keyError => .error .renderError
  | r => r

/-- The class-name dispatch of `load_leaf_json` (lines 76-90): looking up an
unregistered class name in `handle_load_leaf` raises `KeyError`; a
registered name runs the matching constructor on the dictionary, whose
`from_dict` (lines 174-177) reads the optional `transformId`, the required
`dataString` (missing: `KeyError`) and calls `_process_dataString` on it. -/
def handleLoadLeaf (c : String) (d : JDict) : Except PyErr DecodedTform :=
  if c = AffineModel.className then
    match d.dataString? with
    | none => .error .keyError
    | some ds => .ok (.affineLeaf ds d.transformId?)
  else if c = Polynomial2DTransform.className then
    match d.dataString? with
    | none => .error .keyError
    | some ds => .ok (.polyLeaf ds d.transformId?)
  else if c = TranslationModel.className then
    match d.dataString? with
    | none => .error .keyError
    | some ds =>
      match TranslationModel.processDataString ds with
      | .error e => .error e
      | .ok m => .ok (.translationLeaf m d.transformId?)
  else if c = RigidModel.className then
    match d.dataString? with
    | none => .error .keyError
    | some ds =>
      match RigidModel.processDataString ds with
      | .error e => .error e
      | .ok p => .ok (.rigidLeaf p d.transformId?)
  else if c = SimilarityModel.className then
    match d.dataString? with
    | none => .error .keyError
    | some ds =>
      match SimilarityModel.processDataString ds with
      | .error e => .error e
      | .ok p => .ok (.similarityLeaf p d.transformId?)
  else .error .keyError

/-- The generic fallback `Transform(json=d)` (lines 155-180): stores the raw
`className` and `dataString` (required, missing: `KeyError`) and the
optional `transformId`. -/
def genericFromDict (c : String) (d : JDict) : Except PyErr DecodedTform :=
  match d.dataString? with
  | none => .error .keyError
  | some ds => .ok (.generic c ds d.transformId?)

/-- `load_leaf_json` (lines 75-94): a `type` other than `leaf` (default
`leaf` when the key is absent) raises `RenderError`; `className` is read
(missing: `KeyError`, not caught here); then the registered constructor
runs, with the generic fallback on `KeyError`. -/
def load_leaf_json (d : JDict) : Except PyErr DecodedTform :=
  let t := d.type?.getD ("leaf")
  if t ≠ "leaf" then .error .renderError
  else
    match d.className? with
    | none => .error .keyError
    | some c => onKeyErrorFallback (handleLoadLeaf c d) (genericFromDict c d)

/-- `load_transform_json` (lines 63-72): dispatches on
`d.get('type', default_type)`; the `except KeyError` clause turns an
unknown type -- and any `KeyError` escaping the chosen handler -- into
`RenderError`.  Other exceptions (such as the `TypeError` of the three
broken leaf decoders) propagate unchanged.  The `list` and `interpolated`
handlers decode nested sub-dictionaries no claim exercises and are
modelled as opaque tags; the `ref` handler reads the required `refId`
(lines 142-143). -/
def load_transform_json (d : JDict) (defaultType : String) :
    Except PyErr DecodedTform :=
  keyErrorToRenderError
    (let t := d.type?.getD defaultType
     if t = "leaf" then load_leaf_json d
     else if t = "list" then .ok .listT
     else if t = "ref" then
       match d.refId? with
       | none => .error .keyError
       | some rid => .ok (.refT rid)
     else if t = "interpolated" then .ok .interpolatedT
     else .error .keyError)

/-- `Transform.to_dict` (lines 165-172) on the generic leaf: a dictionary
with `type = "leaf"`, the stored `className` and `dataString`, and
`transformId` only when it is set. -/
def DecodedTform.genericToDict (c ds : String) (tid : Option String) : JDict :=
  { type? := some ("leaf"), className? := some c, dataString? := some ds,
    transformId? := tid }

lemma onKeyErrorFallback_ok (v : DecodedTform) (fb : Except PyErr DecodedTform) :
    onKeyErrorFallback (.ok v) fb = .ok v := rfl

lemma onKeyErrorFallback_keyError (fb : Except PyErr DecodedTform) :
    onKeyErrorFallback (.error .keyError) fb = fb := rfl

lemma keyErrorToRenderError_ok (v : DecodedTform) :
    keyErrorToRenderError (.ok v) = .ok v := rfl

lemma keyErrorToRenderError_keyError :
    keyErrorToRenderError (.error .keyError) = .error .renderError := rfl

lemma handleLoadLeaf_unregistered (c : String) (d : JDict)
    (h1 : c ≠ AffineModel.className)
    (h2 : c ≠ Polynomial2DTransform.className)
    (h3 : c ≠ TranslationModel.className)
    (h4 : c ≠ RigidModel.className)
    (h5 : c ≠ SimilarityModel.className) :
    handleLoadLeaf c d = .error .keyError := by
  unfold handleLoadLeaf
  rw [if_neg h1, if_neg h2, if_neg h3, if_neg h4, if_neg h5]

/-- C5: for every input string, the dataString decoders of
`TranslationModel`, `RigidModel` and `SimilarityModel` raise `TypeError` --
each evaluates `map(float(dataString.split(' ')))`, applying `float` to a
list -- before any parameter field is assigned (the error result carries no
fields); consequently none of the three leaf kinds can be constructed from
a dataString, and a JSON leaf dictionary bearing any of the three class
names never decodes: the `TypeError` escapes `load_transform_json`
unchanged. -/
theorem C5_tx_rigid_similarity_always_TypeError (ds : String)
    (tid : Option String) :
    TranslationModel.processDataString ds = .error .typeError ∧
    RigidModel.processDataString ds = .error .typeError ∧
    SimilarityModel.processDataString ds = .error .typeError ∧
    (∀ c, c = TranslationModel.className ∨ c = RigidModel.className ∨
        c = SimilarityModel.className →
      load_transform_json
        { type? := some ("leaf"), className? := some c,
          dataString? := some ds, transformId? := tid } ("leaf") =
        .error .typeError) := by
  refine ⟨rfl, rfl, rfl, ?_⟩
  rintro c (rfl | rfl | rfl) <;> rfl

/-- C5 witness at concrete inputs. -/
theorem C5_tx_rigid_similarity_always_TypeError_witness :
    TranslationModel.processDataString ("1.0 2.0") = .error .typeError ∧
    load_transform_json
      { type? := some ("leaf"),
        className? := some ("mpicbg.trakem2.transform.RigidModel2D"),
        dataString? := some ("0.5 1.0 2.0"), transformId? := none } ("leaf") =
      .error .typeError := by
  refine ⟨(C5_tx_rigid_similarity_always_TypeError ("1.0 2.0") none).1, ?_⟩
  exact (C5_tx_rigid_similarity_always_TypeError ("0.5 1.0 2.0") none).2.2.2
    RigidModel.className (Or.inr (Or.inl rfl))

/-- C6 counterexample: on the well-formed dataStrings `"0.5 1.0 2.0"`
(Rigid, `theta tx ty`) and `"2.0 0.5 1.0 2.0"` (Similarity,
`s theta tx ty`), the text-decoding path raises `TypeError` and sets no
field at all -- in particular it does not set `M10` and `M11`. -/
theorem C6_counterexample_decode_raises_before_assigning :
    RigidModel.processDataString ("0.5 1.0 2.0") = .error .typeError ∧
    SimilarityModel.processDataString ("2.0 0.5 1.0 2.0") =
      .error .typeError := ⟨rfl, rfl⟩

/-- C6 (amended): the text-decoding path of Rigid and Similarity never
completes -- it raises `TypeError` while parsing (see the counterexample)
-- but its assignment statements as written (lines 397-402 and 463-468),
applied to a parsed `theta` (entering as `cosTheta = cos theta`,
`sinTheta = sin theta`, scaled by `s` for Similarity), set both `M10` and
`M11` to `sin(theta)` rather than `M11 = cos(theta)`.  This is inconsistent
with the rotation matrices of the Umeyama fitting path: at the valid angle
with `cos = 3/5`, `sin = 4/5`, the decoded linear block has determinant
`28/25`, not the determinant 1 of a rotation block. -/
theorem C6_amended_decode_assignments_set_M11_to_sin :
    (∀ cosT sinT tx ty : ℚ,
      (RigidModel.fieldsFromParsed cosT sinT tx ty).M10 = sinT ∧
      (RigidModel.fieldsFromParsed cosT sinT tx ty).M11 = sinT) ∧
    (∀ s cosT sinT tx ty : ℚ,
      (SimilarityModel.fieldsFromParsed s cosT sinT tx ty).M10 = s * sinT ∧
      (SimilarityModel.fieldsFromParsed s cosT sinT tx ty).M11 = s * sinT) ∧
    ((3 / 5 : ℚ) ^ 2 + (4 / 5 : ℚ) ^ 2 = 1 ∧
      AffineModel.det2 (RigidModel.fieldsFromParsed (3 / 5) (4 / 5) 0 0) =
        28 / 25 ∧
      AffineModel.det2 (RigidModel.fieldsFromParsed (3 / 5) (4 / 5) 0 0) ≠ 1) := by
  refine ⟨fun cosT sinT tx ty => ⟨rfl, rfl⟩,
    fun s cosT sinT tx ty => ⟨rfl, rfl⟩, by norm_num, ?_, ?_⟩ <;>
    norm_num [AffineModel.det2, RigidModel.fieldsFromParsed]

/-- C3: decoding a leaf dictionary whose class name is not one of the five
registered names succeeds with a generic `Transform` holding exactly the
given `className` and raw `dataString` (and optional `transformId`), and
re-encoding it reproduces the input dictionary; a dictionary whose `type`
is present but is none of `leaf`, `list`, `ref`, `interpolated` fails with
`RenderError`; an absent `type` defaults to `leaf`. -/
theorem C3_unknown_leaf_roundtrip_and_unknown_type_error :
    (∀ c ds : String, ∀ tid : Option String,
      c ∉ registeredLeafClassNames →
      load_transform_json
          { type? := some ("leaf"), className? := some c,
            dataString? := some ds, transformId? := tid } ("leaf") =
          .ok (.generic c ds tid) ∧
        DecodedTform.genericToDict c ds tid =
          { type? := some ("leaf"), className? := some c,
            dataString? := some ds, transformId? := tid }) ∧
    (∀ (d : JDict) (t : String), d.type? = some t →
      t ∉ (["leaf", "list", "ref", "interpolated"] : List String) →
      load_transform_json d ("leaf") = .error .renderError) ∧
    (∀ d : JDict, d.type? = none →
      load_transform_json d ("leaf") =
        load_transform_json { d with type? := some ("leaf") } ("leaf")) := by
  refine ⟨?_, ?_, ?_⟩
  · intro c ds tid hc
    simp only [registeredLeafClassNames, List.mem_cons, List.not_mem_nil,
      or_false, not_or] at hc
    obtain ⟨h1, h2, h3, h4, h5⟩ := hc
    have hll := handleLoadLeaf_unregistered c
      { type? := some ("leaf"), className? := some c, dataString? := some ds,
        transformId? := tid } h1 h2 h3 h4 h5
    refine ⟨?_, rfl⟩
    simp [load_transform_json, load_leaf_json, hll, genericFromDict,
      onKeyErrorFallback_keyError, keyErrorToRenderError_ok]
  · intro d t ht hmem
    simp only [List.mem_cons, List.not_mem_nil, or_false, not_or] at hmem
    obtain ⟨h1, h2, h3, h4⟩ := hmem
    simp [load_transform_json, ht, h1, h2, h3, h4,
      keyErrorToRenderError_keyError]
  · intro d ht
    simp [load_transform_json, load_leaf_json, handleLoadLeaf,
      genericFromDict, ht]

/-- C3 witness at concrete inputs. -/
theorem C3_unknown_leaf_roundtrip_witness :
    (load_transform_json
        { type? := some ("leaf"),
          className? := some ("mpicbg.trakem2.transform.ThinPlateSplineTransform"),
          dataString? := some ("ta 2 2"), transformId? := none } ("leaf") =
        .ok (.generic ("mpicbg.trakem2.transform.ThinPlateSplineTransform")
          ("ta 2 2") none) ∧
      DecodedTform.genericToDict
          ("mpicbg.trakem2.transform.ThinPlateSplineTransform") ("ta 2 2")
          none =
        { type? := some ("leaf"),
          className? := some ("mpicbg.trakem2.transform.ThinPlateSplineTransform"),
          dataString? := some ("ta 2 2"), transformId? := none }) ∧
    load_transform_json
        { type? := some ("unknownType"), className? := none,
          dataString? := none, transformId? := none } ("leaf") =
      .error .renderError ∧
    load_transform_json
        { type? := none,
          className? := some ("mpicbg.trakem2.transform.ThinPlateSplineTransform"),
          dataString? := some ("ta 2 2"), transformId? := none } ("leaf") =
      load_transform_json
        { type? := some ("leaf"),
          className? := some ("mpicbg.trakem2.transform.ThinPlateSplineTransform"),
          dataString? := some ("ta 2 2"), transformId? := none } ("leaf") := by
  refine ⟨C3_unknown_leaf_roundtrip_and_unknown_type_error.1
      ("mpicbg.trakem2.transform.ThinPlateSplineTransform") ("ta 2 2") none
      (by decide), ?_, ?_⟩
  · exact C3_unknown_leaf_roundtrip_and_unknown_type_error.2.1
      { type? := some ("unknownType"), className? := none,
        dataString? := none, transformId? := none } ("unknownType") rfl
      (by decide)
  · exact C3_unknown_leaf_roundtrip_and_unknown_type_error.2.2
      { type? := none,
        className? := some ("mpicbg.trakem2.transform.ThinPlateSplineTransform"),
        dataString? := some ("ta 2 2"), transformId? := none } rfl

/-! ## `Polynomial2DTransform` (claims C9, C10, C7, C2)

`params` is a `2 x K` numpy coefficient array, modelled as the pair of its
two rows.  The `dataString` of a polynomial is modelled at token level: a
token stands for the exact rational value its scientific-notation text
denotes; the `replace('e-0','e-')`/`replace('e+0','e+')`/upper-case-`E`
normalization of line 614 rewrites only the exponent text and does not
change the denoted value, and `' '.join`/`split(' ')` is the identity
between token lists and strings. -/

/-- `2 x K` polynomial coefficients: row 0 and row 1 of `self.params`. -/
abbrev PolyParams := List ℚ × List ℚ

/-- `params.flatten()` (line 615): row-major raveling, all of row 0
followed by all of row 1. -/
def Polynomial2DTransform.ravel (p : PolyParams) : List ℚ :=
  p.1 ++ p.2

/-- `Polynomial2DTransform.order` (lines 539-542):
`int((abs(sqrt(4*no_coeffs + 1)) - 3)/2)` where `no_coeffs` is the length
of the raveled coefficient array.  For the well-formed sizes
`no_coeffs = (o+1)(o+2)` the double-precision square root is exact and the
expression is the integer `o`. -/
def Polynomial2DTransform.order (p : PolyParams) : ℕ :=
  (Nat.sqrt (4 * (p.1.length + p.2.length) + 1) - 3) / 2

/-- `_dataStringfromParams` (lines 612-615) at token level: the raveled
coefficient list. -/
def Polynomial2DTransform.dataStringTokens (p : PolyParams) : List ℚ :=
  Polynomial2DTransform.ravel p

/-- `_process_dataString` and `_format_raveled_params` (lines 617-628) at
token level: the first `len(raveled_params)/2` tokens (Python 2 integer
division) become row 0, the rest row 1. -/
def Polynomial2DTransform.processDataStringTokens (ts : List ℚ) : PolyParams :=
  (ts.take (ts.length / 2), ts.drop (ts.length / 2))

/-- C9: encoding `params` to `dataString` -- row-major flattening, axis 0
then axis 1, exponent marker normalized to `E+`/`E-` with no leading zero
-- followed by decoding is an exact round trip: the decoded coefficient
matrix equals the original, value for value.  (Tokens are modelled by the
exact values they denote; the normalization only rewrites exponent
text.) -/
theorem C9_poly_dataString_roundtrip (p : PolyParams)
    (h : p.1.length = p.2.length) :
    Polynomial2DTransform.processDataStringTokens
      (Polynomial2DTransform.dataStringTokens p) = p := by
  obtain ⟨r0, r1⟩ := p
  simp only at h
  unfold Polynomial2DTransform.processDataStringTokens
    Polynomial2DTransform.dataStringTokens Polynomial2DTransform.ravel
  have hl : (r0 ++ r1).length / 2 = r0.length := by
    simp only [List.length_append]
    omega
  rw [hl]
  exact Prod.ext_iff.mpr ⟨by simp, by simp⟩

/-- C9 witness at a concrete coefficient matrix. -/
theorem C9_poly_dataString_roundtrip_witness :
    Polynomial2DTransform.processDataStringTokens
      (Polynomial2DTransform.dataStringTokens ([0, 1, 0], [0, 0, 1])) =
      (([0, 1, 0], [0, 0, 1]) : PolyParams) :=
  C9_poly_dataString_roundtrip ([0, 1, 0], [0, 0, 1]) rfl

/-- The monomial enumeration shared by `fit` (lines 568-572) and `tform`
(lines 637-641): exponent pairs `(j - i, i)` -- `x`-power, `y`-power --
for total degree `j = 0..o` and, within a degree, `i = 0..j`. -/
def monomialExps (o : ℕ) : List (ℕ × ℕ) :=
  (List.range (o + 1)).flatMap
    (fun j => (List.range (j + 1)).map (fun i => (j - i, i)))

/-- One output coordinate of `Polynomial2DTransform.tform`: the coefficient
row dotted with the monomial basis at `(x, y)`.  The source indexes
`params[row, pidx]` for `pidx` over the whole enumeration (an out-of-range
index would raise); rows of the well-formed length used in every theorem
below make the zip exhaustive. -/
def polyEvalRow (row : List ℚ) (o : ℕ) (x y : ℚ) : ℚ :=
  ((row.zip (monomialExps o)).map
    (fun ce => ce.1 * x ^ ce.2.1 * y ^ ce.2.2)).sum

/-- The order recomputed by `tform` (line 635):
`int((-3 + sqrt(9 - 4*(2 - len(ravel))))/2)`, i.e.
`(sqrt(4*len + 1) - 3)/2`. -/
def Polynomial2DTransform.tformOrder (p : PolyParams) : ℕ :=
  (Nat.sqrt (9 - 4 * 2 + 4 * (p.1.length + p.2.length)) - 3) / 2

/-- `Polynomial2DTransform.tform` (lines 630-642) on one point. -/
def Polynomial2DTransform.tform (p : PolyParams) (pt : ℚ × ℚ) : ℚ × ℚ :=
  let o := Polynomial2DTransform.tformOrder p
  (polyEvalRow p.1 o pt.1 pt.2, polyEvalRow p.2 o pt.1 pt.2)

/-- `Polynomial2DTransform.tform` on an `N x 2` point array. -/
def Polynomial2DTransform.tformPts (p : PolyParams) (pts : List (ℚ × ℚ)) :
    List (ℚ × ℚ) :=
  pts.map (Polynomial2DTransform.tform p)

/-- `Polynomial2DTransform.coefficients` (lines 644-652): total number of
coefficient entries, over both rows, for a given order:
`(order + 1) * (order + 2)`. -/
def Polynomial2DTransform.coefficients (order : ℕ) : ℕ :=
  (order + 1) * (order + 2)

/-- The row copy `new_params[:shape[0], :shape[1]] = params` of line 666:
each coefficient row, zero-padded on the right to the new half-width. -/
def padTo (row : List ℚ) (half : ℕ) : List ℚ :=
  row ++ List.replicate (half - row.length) 0

/-- `Polynomial2DTransform.asorder` (lines 654-667): raises
`ConversionError` when the current order exceeds the requested one;
otherwise builds `new_params = zeros([2, coefficients(order)//2])`, copies
the current coefficients into its leading columns and returns a new
transform with those parameters. -/
def Polynomial2DTransform.asorder (p : PolyParams) (order : ℕ) :
    Except PyErr PolyParams :=
  if Polynomial2DTransform.order p > order then .error .conversionError
  else
    .ok (padTo p.1 (Polynomial2DTransform.coefficients order / 2),
         padTo p.2 (Polynomial2DTransform.coefficients order / 2))

lemma monomialExps_succ (o : ℕ) :
    monomialExps (o + 1) =
      monomialExps o ++
        (List.range (o + 2)).map (fun i => (o + 1 - i, i)) := by
  simp [monomialExps, List.range_succ]

lemma two_mul_monomialExps_length (o : ℕ) :
    2 * (monomialExps o).length = (o + 1) * (o + 2) := by
  induction o with
  | zero => rfl
  | succ o ih =>
    rw [monomialExps_succ, List.length_append, List.length_map,
      List.length_range]
    ring_nf
    ring_nf at ih
    omega

lemma monomialExps_prefix {o o' : ℕ} (h : o ≤ o') :
    ∃ rest, monomialExps o' = monomialExps o ++ rest := by
  induction o' with
  | zero =>
    exact ⟨[], by simp [Nat.le_zero.mp h]⟩
  | succ o' ih =>
    rcases Nat.lt_or_ge o (o' + 1) with hlt | hge
    · obtain ⟨rest, hrest⟩ := ih (Nat.lt_succ_iff.mp hlt)
      exact ⟨rest ++ (List.range (o' + 2)).map (fun i => (o' + 1 - i, i)),
        by rw [monomialExps_succ, hrest, List.append_assoc]⟩
    · have : o = o' + 1 := le_antisymm h hge
      exact ⟨[], by simp [this]⟩

lemma monomialExps_length_mono {o o' : ℕ} (h : o ≤ o') :
    (monomialExps o).length ≤ (monomialExps o').length := by
  obtain ⟨rest, hrest⟩ := monomialExps_prefix h
  simp [hrest]

/-- The order formula evaluated at a well-formed size. -/
lemma order_formula (o L : ℕ) (hL : 2 * L = (o + 1) * (o + 2)) :
    (Nat.sqrt (4 * (2 * L) + 1) - 3) / 2 = o := by
  have h1 : 4 * (2 * L) + 1 = (2 * o + 3) ^ 2 := by
    rw [hL]; ring
  rw [h1, Nat.sqrt_eq']
  omega

lemma order_of_wellformed (p : PolyParams) (o : ℕ)
    (h1 : p.1.length = (monomialExps o).length)
    (h2 : p.2.length = (monomialExps o).length) :
    Polynomial2DTransform.order p = o := by
  have key := two_mul_monomialExps_length o
  have hL : 2 * ((monomialExps o).length) = (o + 1) * (o + 2) := key
  unfold Polynomial2DTransform.order
  rw [h1, h2, show (monomialExps o).length + (monomialExps o).length =
    2 * (monomialExps o).length by ring]
  exact order_formula o _ hL

lemma tformOrder_of_wellformed (p : PolyParams) (o : ℕ)
    (h1 : p.1.length = (monomialExps o).length)
    (h2 : p.2.length = (monomialExps o).length) :
    Polynomial2DTransform.tformOrder p = o := by
  have h := order_of_wellformed p o h1 h2
  unfold Polynomial2DTransform.order at h
  unfold Polynomial2DTransform.tformOrder
  have harg : 9 - 4 * 2 + 4 * (p.1.length + p.2.length) =
      4 * (p.1.length + p.2.length) + 1 := by omega
  rw [harg]
  exact h

lemma zip_replicate_zero_sum (n : ℕ) (rest : List (ℕ × ℕ)) (x y : ℚ) :
    (((List.replicate n (0 : ℚ)).zip rest).map
      (fun ce => ce.1 * x ^ ce.2.1 * y ^ ce.2.2)).sum = 0 := by
  induction n generalizing rest with
  | zero => simp
  | succ n ih =>
    cases rest with
    | nil => simp
    | cons r rs => simp [List.replicate_succ, ih rs]

lemma polyEvalRow_append_zeros (row : List ℚ) (o o' n : ℕ)
    (hlen : row.length = (monomialExps o).length) (h : o ≤ o') (x y : ℚ) :
    polyEvalRow (row ++ List.replicate n 0) o' x y = polyEvalRow row o x y := by
  obtain ⟨rest, hrest⟩ := monomialExps_prefix h
  unfold polyEvalRow
  rw [hrest, List.zip_append hlen, List.map_append, List.sum_append,
    zip_replicate_zero_sum, add_zero]

/-- C10: for a polynomial of order `o` (well-formed row lengths), if
`newOrder >= o` then `asorder` returns a new transform whose coefficients
are the old ones zero-padded (so every added higher-degree coefficient is
zero), whose `order` is `newOrder`, and whose `tform` agrees with the
original on every point set; if `newOrder < o` it raises
`ConversionError` (and, the embedding being pure, the receiver is
untouched). -/
theorem C10_asorder_spec (p : PolyParams) (o newOrder : ℕ)
    (h1 : p.1.length = (monomialExps o).length)
    (h2 : p.2.length = (monomialExps o).length) :
    (o ≤ newOrder →
      Polynomial2DTransform.asorder p newOrder =
        .ok (padTo p.1 (monomialExps newOrder).length,
             padTo p.2 (monomialExps newOrder).length) ∧
      Polynomial2DTransform.order
        (padTo p.1 (monomialExps newOrder).length,
         padTo p.2 (monomialExps newOrder).length) = newOrder ∧
      ∀ pts, Polynomial2DTransform.tformPts
          (padTo p.1 (monomialExps newOrder).length,
           padTo p.2 (monomialExps newOrder).length) pts =
        Polynomial2DTransform.tformPts p pts) ∧
    (newOrder < o →
      Polynomial2DTransform.asorder p newOrder = .error .conversionError) := by
  have horder : Polynomial2DTransform.order p = o := order_of_wellformed p o h1 h2
  have hhalf : Polynomial2DTransform.coefficients newOrder / 2 =
      (monomialExps newOrder).length := by
    have := two_mul_monomialExps_length newOrder
    unfold Polynomial2DTransform.coefficients
    omega
  constructor
  · intro hle
    have hmono := monomialExps_length_mono hle
    have hq1 : (padTo p.1 (monomialExps newOrder).length).length =
        (monomialExps newOrder).length := by
      unfold padTo
      simp only [List.length_append, List.length_replicate]
      omega
    have hq2 : (padTo p.2 (monomialExps newOrder).length).length =
        (monomialExps newOrder).length := by
      unfold padTo
      simp only [List.length_append, List.length_replicate]
      omega
    refine ⟨?_, order_of_wellformed _ newOrder hq1 hq2, ?_⟩
    · unfold Polynomial2DTransform.asorder
      rw [if_neg (by omega), hhalf]
    · intro pts
      unfold Polynomial2DTransform.tformPts
      apply List.map_congr_left
      intro pt _
      have hto : Polynomial2DTransform.tformOrder
          (padTo p.1 (monomialExps newOrder).length,
           padTo p.2 (monomialExps newOrder).length) = newOrder :=
        tformOrder_of_wellformed
          (padTo p.1 (monomialExps newOrder).length,
           padTo p.2 (monomialExps newOrder).length) newOrder hq1 hq2
      have htp : Polynomial2DTransform.tformOrder p = o :=
        tformOrder_of_wellformed p o h1 h2
      simp only [Polynomial2DTransform.tform, hto, htp]
      unfold padTo
      exact Prod.ext_iff.mpr
        ⟨polyEvalRow_append_zeros p.1 o newOrder _ h1 hle pt.1 pt.2,
         polyEvalRow_append_zeros p.2 o newOrder _ h2 hle pt.1 pt.2⟩
  · intro hlt
    unfold Polynomial2DTransform.asorder
    rw [if_pos (by omega)]

/-- C10 witness: the order-1 identity polynomial raised to order 2, and the
downgrade of an order-1 polynomial to order 0 raising `ConversionError`. -/
theorem C10_asorder_spec_witness :
    (Polynomial2DTransform.asorder (([0, 1, 0], [0, 0, 1]) : PolyParams) 2 =
      .ok (padTo [0, 1, 0] (monomialExps 2).length,
           padTo [0, 0, 1] (monomialExps 2).length) ∧
     Polynomial2DTransform.order
        (padTo [0, 1, 0] (monomialExps 2).length,
         padTo [0, 0, 1] (monomialExps 2).length) = 2 ∧
     Polynomial2DTransform.tformPts
        (padTo [0, 1, 0] (monomialExps 2).length,
         padTo [0, 0, 1] (monomialExps 2).length) [(5, 7)] =
       Polynomial2DTransform.tformPts (([0, 1, 0], [0, 0, 1]) : PolyParams)
         [(5, 7)]) ∧
    Polynomial2DTransform.asorder (([0, 1, 0], [0, 0, 1]) : PolyParams) 0 =
      .error .conversionError := by
  have h := C10_asorder_spec (([0, 1, 0], [0, 0, 1]) : PolyParams) 1 2 rfl rfl
  have h0 := C10_asorder_spec (([0, 1, 0], [0, 0, 1]) : PolyParams) 1 0 rfl rfl
  obtain ⟨ha, hb, hc⟩ := h.1 (by omega)
  exact ⟨⟨ha, hb, hc [(5, 7)]⟩, h0.2 (by omega)⟩

/-! ## The retry loop of `Polynomial2DTransform.estimate` (claim C7) -/

/-- Outcome of one call to `Polynomial2DTransform.fit` (line 597): either a
caught numeric failure (`LinAlgError`/`ValueError`, lines 598-600) or a
returned coefficient array.  `fit`'s SVD-based numerics (numpy/scipy, lines
548-580) are outside the embedding, so the loop is verified for every
possible outcome sequence. -/
inductive FitAttempt where
  | fails
  | returns (params : PolyParams)

/-- `np.allclose(result, dst, atol=atol, rtol=rtol)` (lines 587-589) on two
equal-shaped point arrays: elementwise `|a - b| <= atol + rtol * |b|`. -/
def allclosePts (xs ys : List (ℚ × ℚ)) (atol rtol : ℚ) : Bool :=
  (xs.length == ys.length) &&
  (xs.zip ys).all (fun ab =>
    decide (|ab.1.1 - ab.2.1| ≤ atol + rtol * |ab.2.1|) &&
    decide (|ab.1.2 - ab.2.2| ≤ atol + rtol * |ab.2.2|))

/-- `fitgood` (lines 585-590): builds `Polynomial2DTransform(params=params)`,
forward-maps `src` and compares with `dst` by `np.allclose` with the
default `atol=1e-3, rtol=0`. -/
def fitgood (src dst : List (ℚ × ℚ)) (params : PolyParams) : Bool :=
  allclosePts (Polynomial2DTransform.tformPts params src) dst (1 / 1000) 0

/-- The `while (tries < max_tries and not estimated)` loop of lines
592-606, with `tries` the number of attempts already made and the second
argument the remaining budget `max_tries - tries`: a `LinAlgError` or
`ValueError` from `fit` is caught and the loop retries (`continue`, line
600); a returned fit is accepted only if `good` holds of it (line 601);
when the budget is exhausted without an accepted fit, lines 604-606 raise
`EstimationError`. -/
def estimateLoop (attempts : ℕ → FitAttempt) (good : PolyParams → Bool) :
    ℕ → ℕ → Except PyErr PolyParams
  | _, 0 => .error .estimationError
  | tries, r + 1 =>
    match attempts tries with
    | .fails => estimateLoop attempts good (tries + 1) r
    | .returns p =>
      if good p then .ok p else estimateLoop attempts good (tries + 1) r

/-- `Polynomial2DTransform.estimate` (lines 582-610): runs the retry loop
with `fitgood src dst` as acceptance test when `test_coords` is set (line
601-602), starting from zero tries with budget `max_tries`.  The `n`-th
entry of `attempts` is the outcome of the `(n+1)`-th `fit` call. -/
def Polynomial2DTransform.estimate (src dst : List (ℚ × ℚ))
    (attempts : ℕ → FitAttempt) (testCoords : Bool) (maxTries : ℕ) :
    Except PyErr PolyParams :=
  estimateLoop attempts
    (fun p => if testCoords then fitgood src dst p else true) 0 maxTries

/-- The value of `self.params` after `estimate` runs on a model whose
parameters were `prior`: the assignment `self.params = params` (line 608)
sits after the `raise` of lines 604-606, so a raising call leaves the
prior parameters in place. -/
def Polynomial2DTransform.estimatePost (prior : PolyParams)
    (r : Except PyErr PolyParams) : PolyParams :=
  match r with
  | .ok p => p
  | .error _ => prior

/-- An attempt the loop does not accept: a caught numeric failure, or a
returned fit rejected by the acceptance test. -/
def attemptRejected (good : PolyParams → Bool) : FitAttempt → Bool
  | .fails => true
  | .returns p => !good p

lemma estimateLoop_ok_good (attempts : ℕ → FitAttempt)
    (good : PolyParams → Bool) (tries fuel : ℕ) (p : PolyParams)
    (h : estimateLoop attempts good tries fuel = .ok p) :
    good p = true := by
  induction fuel generalizing tries with
  | zero => simp [estimateLoop] at h
  | succ r ih =>
    rw [estimateLoop] at h
    cases hat : attempts tries with
    | fails =>
      rw [hat] at h
      exact ih (tries + 1) h
    | returns q =>
      rw [hat] at h
      have h2 : (if good q = true then Except.ok q
          else estimateLoop attempts good (tries + 1) r) = .ok p := h
      by_cases hg : good q = true
      · rw [if_pos hg] at h2
        cases h2
        exact hg
      · rw [if_neg hg] at h2
        exact ih (tries + 1) h2

lemma estimateLoop_ok_from_attempt (attempts : ℕ → FitAttempt)
    (good : PolyParams → Bool) (tries fuel : ℕ) (p : PolyParams)
    (h : estimateLoop attempts good tries fuel = .ok p) :
    ∃ i, tries ≤ i ∧ i < tries + fuel ∧ attempts i = .returns p := by
  induction fuel generalizing tries with
  | zero => simp [estimateLoop] at h
  | succ r ih =>
    rw [estimateLoop] at h
    cases hat : attempts tries with
    | fails =>
      rw [hat] at h
      obtain ⟨i, hi1, hi2, hi3⟩ := ih (tries + 1) h
      exact ⟨i, by omega, by omega, hi3⟩
    | returns q =>
      rw [hat] at h
      have h2 : (if good q = true then Except.ok q
          else estimateLoop attempts good (tries + 1) r) = .ok p := h
      by_cases hg : good q = true
      · rw [if_pos hg] at h2
        cases h2
        exact ⟨tries, le_refl _, by omega, hat⟩
      · rw [if_neg hg] at h2
        obtain ⟨i, hi1, hi2, hi3⟩ := ih (tries + 1) h2
        exact ⟨i, by omega, by omega, hi3⟩

lemma estimateLoop_all_rejected (attempts : ℕ → FitAttempt)
    (good : PolyParams → Bool) (tries fuel : ℕ)
    (h : ∀ i, tries ≤ i → i < tries + fuel →
      attemptRejected good (attempts i) = true) :
    estimateLoop attempts good tries fuel = .error .estimationError := by
  induction fuel generalizing tries with
  | zero => rfl
  | succ r ih =>
    rw [estimateLoop]
    cases hat : attempts tries with
    | fails =>
      exact ih (tries + 1) (fun i hi1 hi2 => h i (by omega) (by omega))
    | returns q =>
      have hq := h tries (le_refl _) (by omega)
      rw [hat] at hq
      simp only [attemptRejected] at hq
      show (if good q = true then Except.ok q
          else estimateLoop attempts good (tries + 1) r) =
        .error .estimationError
      rw [if_neg (by simp_all)]
      exact ih (tries + 1) (fun i hi1 hi2 => h i (by omega) (by omega))

lemma estimateLoop_congr (attempts attempts2 : ℕ → FitAttempt)
    (good : PolyParams → Bool) (tries fuel : ℕ)
    (h : ∀ i, tries ≤ i → i < tries + fuel → attempts i = attempts2 i) :
    estimateLoop attempts good tries fuel =
      estimateLoop attempts2 good tries fuel := by
  induction fuel generalizing tries with
  | zero => rfl
  | succ r ih =>
    rw [estimateLoop, estimateLoop, ← h tries (le_refl _) (by omega)]
    cases attempts tries with
    | fails => exact ih (tries + 1) (fun i hi1 hi2 => h i (by omega) (by omega))
    | returns q =>
      show (if good q = true then Except.ok q
          else estimateLoop attempts good (tries + 1) r) =
        (if good q = true then Except.ok q
          else estimateLoop attempts2 good (tries + 1) r)
      by_cases hg : good q = true
      · rw [if_pos hg, if_pos hg]
      · rw [if_neg hg, if_neg hg]
        exact ih (tries + 1) (fun i hi1 hi2 => h i (by omega) (by omega))

/-- C7: the retry loop of `Polynomial2DTransform.estimate` (i) consults at
most the first `max_tries` fit outcomes -- two runs whose outcomes agree
below `max_tries` give the same result; (ii) with `test_coords` set, a
returned result always satisfies the acceptance test
`np.allclose(tform(src), dst, atol=1e-3, rtol=0)`; (iii) if every attempt
below `max_tries` is a caught `LinAlgError`/`ValueError` or a rejected
fit, it raises `EstimationError`; and (iv) on a raising run the model's
prior `params` are left untouched. -/
theorem C7_estimate_retry_loop (src dst : List (ℚ × ℚ))
    (attempts attempts2 : ℕ → FitAttempt) (maxTries : ℕ) :
    ((∀ i, i < maxTries → attempts i = attempts2 i) →
      Polynomial2DTransform.estimate src dst attempts true maxTries =
        Polynomial2DTransform.estimate src dst attempts2 true maxTries) ∧
    (∀ p, Polynomial2DTransform.estimate src dst attempts true maxTries =
        .ok p → fitgood src dst p = true) ∧
    ((∀ i, i < maxTries →
        attemptRejected (fitgood src dst) (attempts i) = true) →
      Polynomial2DTransform.estimate src dst attempts true maxTries =
        .error .estimationError) ∧
    (∀ prior e,
      Polynomial2DTransform.estimate src dst attempts true maxTries =
        .error e →
      Polynomial2DTransform.estimatePost prior
        (Polynomial2DTransform.estimate src dst attempts true maxTries) =
        prior) := by
  refine ⟨?_, ?_, ?_, ?_⟩
  · intro h
    exact estimateLoop_congr attempts attempts2 _ 0 maxTries
      (fun i _ hi2 => h i (by omega))
  · intro p hp
    have := estimateLoop_ok_good attempts _ 0 maxTries p hp
    simpa using this
  · intro h
    apply estimateLoop_all_rejected
    intro i _ hi2
    have := h i (by omega)
    unfold attemptRejected at this ⊢
    cases hat : attempts i with
    | fails => rfl
    | returns q =>
      rw [hat] at this
      simpa using this
  · intro prior e he
    unfold Polynomial2DTransform.estimatePost
    rw [he]

/-- C7 witness: three straight numeric failures exhaust a budget of 3 and
raise `EstimationError`, leaving the prior parameters in place. -/
theorem C7_estimate_retry_loop_witness :
    Polynomial2DTransform.estimate [(0, 0)] [(0, 0)] (fun _ => .fails) true 3 =
      .error .estimationError ∧
    Polynomial2DTransform.estimatePost ([1, 2, 3], [4, 5, 6])
      (Polynomial2DTransform.estimate [(0, 0)] [(0, 0)] (fun _ => .fails)
        true 3) = ([1, 2, 3], [4, 5, 6]) := by
  have h := C7_estimate_retry_loop [(0, 0)] [(0, 0)] (fun _ => .fails)
    (fun _ => .fails) 3
  have herr := h.2.2.1 (fun i _ => rfl)
  exact ⟨herr, h.2.2.2 ([1, 2, 3], [4, 5, 6]) .estimationError herr⟩

/-! ## The composition engine (claim C2)

`estimate_transformsum` (lines 699-727) takes a possibly nested Python
list of transform objects.  The chains exercised here hold Affine-family
and Polynomial leaves and nested lists (the kinds with a `tform` method;
`flatten` recurses exactly into Python lists, since `Transform` objects
define no `__iter__` and are not `collections.Iterable`). -/

/-- A member of a (possibly nested) transform chain: an Affine-family leaf
(carrying its `className`, which for the Translation/Rigid/Similarity
subclasses differs from the Affine one while `tform` is shared), a
Polynomial leaf, or a nested Python list. -/
inductive TNode where
  | affineN (className : String) (m : AffineModel)
  | polyN (q : PolyParams)
  | listN (ts : List TNode)

mutual

/-- One iteration of the `estimate_dstpts` loop (lines 691-695): a nested
list recurses with the running point set, any other member maps the
running point set through its `tform`. -/
def TNode.applyT : TNode → List (ℚ × ℚ) → List (ℚ × ℚ)
  | .affineN _ m, pts => m.tformPts pts
  | .polyN q, pts => Polynomial2DTransform.tformPts q pts
  | .listN ts, pts => estimate_dstpts ts pts

/-- `estimate_dstpts` (lines 682-696): left-to-right sequential application
of the chain to the source points. -/
def estimate_dstpts : List TNode → List (ℚ × ℚ) → List (ℚ × ℚ)
  | [], pts => pts
  | t :: ts, pts => estimate_dstpts ts (TNode.applyT t pts)

end

mutual

/-- The generator `flatten` of `estimate_transformsum` (lines 711-718) on
one member: Python lists (`Iterable`, not strings) are recursed into,
transform objects are yielded. -/
def TNode.flattenT : TNode → List TNode
  | .affineN c m => [.affineN c m]
  | .polyN q => [.polyN q]
  | .listN ts => flattenList ts

/-- `flatten` (lines 711-718) over a list of members. -/
def flattenList : List TNode → List TNode
  | [] => []
  | t :: ts => TNode.flattenT t ++ flattenList ts

end

/-- The `className` attribute read by the all-Affine test (line 722).  A
Python list has no such attribute; flattened chains contain no list
nodes. -/
def TNode.classNameOf : TNode → String
  | .affineN c _ => c
  | .polyN _ => Polynomial2DTransform.className
  | .listN _ => ""

/-- The test of lines 721-723: every member of the flattened chain has the
Affine class name itself (a Translation/Rigid/Similarity leaf, whose
`className` differs, fails the test). -/
def allAffineChain (ts : List TNode) : Bool :=
  (flattenList ts).all (fun t => t.classNameOf == AffineModel.className)

/-- The Affine models of a flattened chain, in order. -/
def affinesOf (ts : List TNode) : List AffineModel :=
  (flattenList ts).filterMap (fun t =>
    match t with
    | .affineN _ m => some m
    | _ => none)

/-- The matrix product of sequential `concatenate` calls over a chain,
applied left to right starting from the identity: after the fold, the
accumulated model applies the first list member first. -/
def concatChain (ms : List AffineModel) : AffineModel :=
  ms.foldl (fun acc m => m.concatenate acc) {}

lemma AffineModel.concatenate_tformPts (A B : AffineModel)
    (pts : List (ℚ × ℚ)) :
    (A.concatenate B).tformPts pts = A.tformPts (B.tformPts pts) := by
  simp only [AffineModel.tformPts, List.map_map]
  exact List.map_congr_left fun p _ => A.concatenate_tform B p

lemma AffineModel.id_tformPts (pts : List (ℚ × ℚ)) :
    ({} : AffineModel).tformPts pts = pts := by
  have hpt : ∀ p : ℚ × ℚ, ({} : AffineModel).tform p = p := by
    intro p
    have hw : (0 : ℚ) * p.1 + 0 * p.2 + 1 = 1 := by ring
    simp only [AffineModel.tform, hw, div_one]
    exact Prod.ext_iff.mpr ⟨by norm_num, by norm_num⟩
  simp only [AffineModel.tformPts]
  exact (List.map_congr_left fun p _ => hpt p).trans (List.map_id pts)

lemma estimate_dstpts_append (l1 l2 : List TNode) (pts : List (ℚ × ℚ)) :
    estimate_dstpts (l1 ++ l2) pts =
      estimate_dstpts l2 (estimate_dstpts l1 pts) := by
  induction l1 generalizing pts with
  | nil => rfl
  | cons t ts ih =>
    show estimate_dstpts (ts ++ l2) (t.applyT pts) =
      estimate_dstpts l2 (estimate_dstpts ts (t.applyT pts))
    exact ih (t.applyT pts)

mutual

theorem TNode.applyT_flatten (t : TNode) (pts : List (ℚ × ℚ)) :
    TNode.applyT t pts = estimate_dstpts t.flattenT pts := by
  cases t with
  | affineN c m => rfl
  | polyN q => rfl
  | listN ts => exact estimate_dstpts_flatten ts pts

theorem estimate_dstpts_flatten (ts : List TNode) (pts : List (ℚ × ℚ)) :
    estimate_dstpts ts pts = estimate_dstpts (flattenList ts) pts := by
  cases ts with
  | nil => rfl
  | cons t rest =>
    show estimate_dstpts rest (t.applyT pts) =
      estimate_dstpts (t.flattenT ++ flattenList rest) pts
    rw [estimate_dstpts_append, ← TNode.applyT_flatten t pts]
    exact estimate_dstpts_flatten rest (t.applyT pts)

end

lemma node_affine_of_className (n : TNode)
    (h : (n.classNameOf == AffineModel.className) = true) :
    ∃ c m, n = .affineN c m := by
  cases n with
  | affineN c m => exact ⟨c, m, rfl⟩
  | polyN q =>
    simp [TNode.classNameOf, Polynomial2DTransform.className,
      AffineModel.className] at h
  | listN ts =>
    simp [TNode.classNameOf, AffineModel.className] at h

lemma estimate_dstpts_affine_fold (ns : List TNode) (acc : AffineModel)
    (pts : List (ℚ × ℚ))
    (h : ∀ n ∈ ns, (n.classNameOf == AffineModel.className) = true) :
    estimate_dstpts ns (acc.tformPts pts) =
      ((ns.filterMap fun t =>
          match t with
          | .affineN _ m => some m
          | _ => none).foldl
        (fun a m => m.concatenate a) acc).tformPts pts := by
  induction ns generalizing acc with
  | nil => rfl
  | cons n rest ih =>
    obtain ⟨c, m, rfl⟩ := node_affine_of_className n (h n (List.mem_cons_self n rest))
    show estimate_dstpts rest (TNode.applyT (.affineN c m) (acc.tformPts pts)) = _
    have happ : TNode.applyT (.affineN c m) (acc.tformPts pts) =
        (m.concatenate acc).tformPts pts :=
      (AffineModel.concatenate_tformPts m acc pts).symm
    rw [happ, ih (m.concatenate acc)
      (fun x hx => h x (List.mem_cons_of_mem _ hx))]
    rfl

lemma AffineModel.eq_of_fields (A C : AffineModel)
    (h1 : A.M00 = C.M00) (h2 : A.M01 = C.M01) (h3 : A.M10 = C.M10)
    (h4 : A.M11 = C.M11) (h5 : A.B0 = C.B0) (h6 : A.B1 = C.B1) : A = C := by
  cases A
  cases C
  simp_all

/-- The statement that a parameter vector solves the least-squares system
of `AffineModel.fit` exactly: the model `estimate` (lines 262-272)
assembles from it maps every source point to its destination point.  Each
row pair of the design system (lines 254-257) demands exactly
`M00*x + M01*y + B0 = dx` and `M10*x + M11*y + B1 = dy`; the system of the
all-Affine branch is consistent, a least-squares solution of a consistent
system attains residual zero, and `np.linalg.lstsq` returns such a
solution.  (The lengths of the two lists agree by the shape check of line
244.) -/
def exactOn (A : AffineModel) (src dst : List (ℚ × ℚ)) : Bool :=
  (src.zip dst).all (fun sd => A.tform sd.1 == sd.2)

lemma exactOn_agree (A C : AffineModel) (src : List (ℚ × ℚ))
    (h : exactOn A src (C.tformPts src) = true) :
    ∀ s ∈ src, A.tform s = C.tform s := by
  induction src with
  | nil => simp
  | cons s rest ih =>
    simp only [exactOn, AffineModel.tformPts, List.map_cons,
      List.zip_cons_cons, List.all_cons, Bool.and_eq_true, beq_iff_eq] at h
    intro x hx
    rcases List.mem_cons.mp hx with rfl | hmem
    · exact h.1
    · exact ih h.2 x hmem

lemma affine_eq_of_agree_three (A C : AffineModel) (p q r : ℚ × ℚ)
    (hdet : (q.1 - p.1) * (r.2 - p.2) - (r.1 - p.1) * (q.2 - p.2) ≠ 0)
    (hp : A.tform p = C.tform p) (hq : A.tform q = C.tform q)
    (hr : A.tform r = C.tform r) : A = C := by
  have hw : ∀ x y : ℚ, 0 * x + 0 * y + 1 = 1 := fun x y => by ring
  simp only [AffineModel.tform, hw, div_one, mul_one, Prod.ext_iff] at hp hq hr
  obtain ⟨hp1, hp2⟩ := hp
  obtain ⟨hq1, hq2⟩ := hq
  obtain ⟨hr1, hr2⟩ := hr
  have h00 : A.M00 = C.M00 := by
    rcases mul_eq_zero.mp (show (A.M00 - C.M00) *
        ((q.1 - p.1) * (r.2 - p.2) - (r.1 - p.1) * (q.2 - p.2)) = 0 by
      linear_combination (r.2 - p.2) * hq1 - (r.2 - p.2) * hp1 -
        (q.2 - p.2) * hr1 + (q.2 - p.2) * hp1) with hz | hz
    · linarith [sub_eq_zero.mp hz]
    · exact absurd hz hdet
  have h01 : A.M01 = C.M01 := by
    rcases mul_eq_zero.mp (show (A.M01 - C.M01) *
        ((q.1 - p.1) * (r.2 - p.2) - (r.1 - p.1) * (q.2 - p.2)) = 0 by
      linear_combination (q.1 - p.1) * hr1 - (q.1 - p.1) * hp1 -
        (r.1 - p.1) * hq1 + (r.1 - p.1) * hp1) with hz | hz
    · linarith [sub_eq_zero.mp hz]
    · exact absurd hz hdet
  have hB0 : A.B0 = C.B0 := by
    linear_combination hp1 - p.1 * h00 - p.2 * h01
  have h10 : A.M10 = C.M10 := by
    rcases mul_eq_zero.mp (show (A.M10 - C.M10) *
        ((q.1 - p.1) * (r.2 - p.2) - (r.1 - p.1) * (q.2 - p.2)) = 0 by
      linear_combination (r.2 - p.2) * hq2 - (r.2 - p.2) * hp2 -
        (q.2 - p.2) * hr2 + (q.2 - p.2) * hp2) with hz | hz
    · linarith [sub_eq_zero.mp hz]
    · exact absurd hz hdet
  have h11 : A.M11 = C.M11 := by
    rcases mul_eq_zero.mp (show (A.M11 - C.M11) *
        ((q.1 - p.1) * (r.2 - p.2) - (r.1 - p.1) * (q.2 - p.2)) = 0 by
      linear_combination (q.1 - p.1) * hr2 - (q.1 - p.1) * hp2 -
        (r.1 - p.1) * hq2 + (r.1 - p.1) * hp2) with hz | hz
    · linarith [sub_eq_zero.mp hz]
    · exact absurd hz hdet
  have hB1 : A.B1 = C.B1 := by
    linear_combination hp2 - p.1 * h10 - p.2 * h11
  exact AffineModel.eq_of_fields A C h00 h01 h10 h11 hB0 hB1

/-- `Polynomial2DTransform.fit` (lines 548-580) reshapes its solution to
`(2, no_coeff // 2)` with `no_coeff = (order+1)(order+2)` (lines 555,
580), so a successful fit outcome for a requested order always carries
rows of that length. -/
def attemptShaped (order : ℕ) : FitAttempt → Bool
  | .fails => true
  | .returns p => (p.1.length == (monomialExps order).length) &&
      (p.2.length == (monomialExps order).length)

/-- C2: `estimate_transformsum` (lines 699-727) computes
`dstpts = estimate_dstpts(transformlist, src)` and flattens the chain.
(i) If every flattened member has the Affine class name, the chain's
members are Affine models, `dstpts` is exactly the image of `src` under
the matrix product of sequential `concatenate` calls over the flattened
chain, and any parameter vector that solves the least-squares fit system
of `AffineModel.estimate(A=src, B=dstpts)` exactly -- which the
least-squares solution of this consistent system does -- is that very
product, provided `src` holds three non-collinear points; so the returned
`AffineModel`'s matrix equals the product.  (ii) Otherwise the branch of
line 727 builds `Polynomial2DTransform(src=src, dst=dstpts, order=order)`,
whose constructor runs `estimate` with `test_coords` set: whatever the fit
outcomes, a successfully returned polynomial satisfies
`np.allclose(tform(src), dstpts, atol=1e-3, rtol=0)`, and -- the fit
shapes being `(2, (order+1)(order+2)/2)` -- has the requested order. -/
theorem C2_estimate_transformsum_spec (ts : List TNode) (src : List (ℚ × ℚ)) :
    (allAffineChain ts = true →
      estimate_dstpts ts src = (concatChain (affinesOf ts)).tformPts src ∧
      ∀ (Afit : AffineModel) (p q r : ℚ × ℚ), p ∈ src → q ∈ src → r ∈ src →
        (q.1 - p.1) * (r.2 - p.2) - (r.1 - p.1) * (q.2 - p.2) ≠ 0 →
        exactOn Afit src (estimate_dstpts ts src) = true →
        Afit = concatChain (affinesOf ts)) ∧
    (allAffineChain ts = false →
      ∀ (order maxTries : ℕ) (attempts : ℕ → FitAttempt)
        (result : PolyParams),
        Polynomial2DTransform.estimate src (estimate_dstpts ts src) attempts
          true maxTries = .ok result →
        fitgood src (estimate_dstpts ts src) result = true ∧
        ((∀ i, i < maxTries → attemptShaped order (attempts i) = true) →
          Polynomial2DTransform.order result = order)) := by
  constructor
  · intro hall
    have hmembers : ∀ n ∈ flattenList ts,
        (n.classNameOf == AffineModel.className) = true := by
      intro n hn
      exact List.all_eq_true.mp hall n hn
    have hdst : estimate_dstpts ts src =
        (concatChain (affinesOf ts)).tformPts src := by
      rw [estimate_dstpts_flatten ts src]
      calc estimate_dstpts (flattenList ts) src
          = estimate_dstpts (flattenList ts)
              (({} : AffineModel).tformPts src) := by
            rw [AffineModel.id_tformPts]
        _ = (concatChain (affinesOf ts)).tformPts src := by
            rw [estimate_dstpts_affine_fold (flattenList ts) {} src hmembers]
            rfl
    refine ⟨hdst, ?_⟩
    intro Afit p q r hp hq hr hdet hexact
    rw [hdst] at hexact
    have hagree := exactOn_agree Afit (concatChain (affinesOf ts)) src hexact
    exact affine_eq_of_agree_three Afit (concatChain (affinesOf ts)) p q r
      hdet (hagree p hp) (hagree q hq) (hagree r hr)
  · intro _ order maxTries attempts result hok
    have hloop : estimateLoop attempts
        (fun pa => if true = true then
          fitgood src (estimate_dstpts ts src) pa else true) 0 maxTries =
        .ok result := hok
    constructor
    · have := estimateLoop_ok_good attempts _ 0 maxTries result hloop
      simpa using this
    · intro hshape
      obtain ⟨i, _, hi2, hi3⟩ :=
        estimateLoop_ok_from_attempt attempts _ 0 maxTries result hloop
      have hs := hshape i (by omega)
      rw [hi3] at hs
      simp only [attemptShaped, Bool.and_eq_true, beq_iff_eq] at hs
      exact order_of_wellformed result order hs.1 hs.2

/-- C2 witness: the chain `[A1, [A2]]` of two Affine leaves over the source
triple `(0,0), (1,0), (0,1)`, whose exact fit is the concatenation
`A2 ∘ A1`; and a one-member polynomial chain whose estimate accepts an
identity fit of order 1. -/
theorem C2_estimate_transformsum_spec_witness :
    (({ M00 := 2, M01 := 0, M10 := 0, M11 := 3, B0 := 1, B1 := 2 } :
        AffineModel) =
      concatChain (affinesOf
        [.affineN AffineModel.className
          { M00 := 2, M01 := 0, M10 := 0, M11 := 1, B0 := 1, B1 := 0 },
         .listN [.affineN AffineModel.className
          { M00 := 1, M01 := 0, M10 := 0, M11 := 3, B0 := 0, B1 := 2 }]])) ∧
    fitgood [] (estimate_dstpts [.polyN ([0, 1, 0], [0, 0, 1])] [])
      (([0, 1, 0], [0, 0, 1]) : PolyParams) = true ∧
    Polynomial2DTransform.order (([0, 1, 0], [0, 0, 1]) : PolyParams) = 1 := by
  have h := C2_estimate_transformsum_spec
    [.affineN AffineModel.className
      { M00 := 2, M01 := 0, M10 := 0, M11 := 1, B0 := 1, B1 := 0 },
     .listN [.affineN AffineModel.className
      { M00 := 1, M01 := 0, M10 := 0, M11 := 3, B0 := 0, B1 := 2 }]]
    [(0, 0), (1, 0), (0, 1)]
  obtain ⟨hdst, huniq⟩ := h.1 (by decide)
  have h2 := C2_estimate_transformsum_spec [.polyN ([0, 1, 0], [0, 0, 1])] []
  obtain ⟨hfg, hord⟩ := h2.2 (by decide) 1 1
    (fun _ => .returns ([0, 1, 0], [0, 0, 1])) ([0, 1, 0], [0, 0, 1]) rfl
  refine ⟨?_, hfg, hord (fun i _ => by decide)⟩
  refine huniq { M00 := 2, M01 := 0, M10 := 0, M11 := 3, B0 := 1, B1 := 2 }
    (0, 0) (1, 0) (0, 1) (by simp) (by simp) (by simp) (by norm_num) ?_
  simp only [exactOn, estimate_dstpts, TNode.applyT, AffineModel.tformPts,
    AffineModel.tform, List.map_cons, List.map_nil, List.zip_cons_cons,
    List.all_cons, Bool.and_eq_true, beq_iff_eq]
  norm_num
